import Mathlib

/-!
Verification of the match-coordinator (`GameRoom`) of the intro-game server.

The definitions below are a shallow embedding of `src/server/GameRoom.ts`
(the current version, whose per-room `currentStage` is shared by both
players).  JavaScript `Map`s are modelled as insertion-ordered association
lists, the single `setTimeout` handle as a boolean flag recording whether a
timer is live, and the callback hooks (`onGuessResult`, `onRoundComplete`,
...) as an emitted list of `Event` values, in emission order.
-/

namespace IntroGame

/-- `TrackData` from `src/shared/events.ts`. -/
structure TrackData where
  id : String
  title : String
  artist : String
  album : String
  albumArt : String
  previewUrl : Option String
deriving DecidableEq, Repr

/-- `PlayerInfo` from `src/shared/events.ts`. -/
structure PlayerInfo where
  id : String
  displayName : String
  avatarUrl : String
deriving DecidableEq, Repr

/-- `PlayerRoundState` from `src/server/GameRoom.ts`. -/
structure PlayerRoundState where
  isLocked : Bool
  guessedCorrectly : Bool
  pointsEarned : Nat
  stageGuessedAt : Option Nat
  totalScore : Nat
  correctGuesses : Nat
  streak : Nat
  bestStreak : Nat
deriving DecidableEq, Repr

/-- One per-player entry of a `RoundCompletePayload`. -/
structure RoundResult where
  guessedCorrectly : Bool
  pointsEarned : Nat
  stageGuessedAt : Option Nat
  totalScore : Nat
deriving DecidableEq, Repr

/-- One per-player entry of a `GameOverPayload`. -/
structure ScoreEntry where
  displayName : String
  totalScore : Nat
  correctGuesses : Nat
  bestStreak : Nat
deriving DecidableEq, Repr

/-- The callback invocations a `GameRoom` makes, in order.  Each constructor
corresponds to one `on...` hook of the room. -/
inductive Event where
  | guessResult (playerId : String) (correct : Bool) (pointsEarned : Nat)
      (newStage : Option Nat) (isLocked : Bool)
  | opponentGuessed (targetId : String) (timerSeconds : Nat)
      (opponentStage : Nat) (correct : Bool)
  | pressureExpired (playerId : String)
  | roundComplete (round : Nat) (track : TrackData)
      (results : List (String × RoundResult))
  | newRound (round : Nat) (totalRounds : Nat) (track : TrackData)
  | gameOver (playlistName : String) (totalRounds : Nat)
      (scores : List (String × ScoreEntry)) (winnerId : String)
  | opponentStageUpdate (targetId : String) (stage : Nat)
  | stageAdvance (newStage : Nat)
  | opponentCorrect (targetId : String) (track : TrackData)
      (opponentPointsEarned : Nat) (opponentStage : Nat)
deriving DecidableEq, Repr

/-- `Map.get`: first binding of the key in insertion order. -/
def assocGet {α : Type} (m : List (String × α)) (k : String) : Option α :=
  match m with
  | [] => none
  | (k₁, v) :: rest => if k₁ = k then some v else assocGet rest k

/-- `Map.set`: replace the binding in place if the key is present, keeping its
insertion position, otherwise append a new binding. -/
def assocSet {α : Type} (m : List (String × α)) (k : String) (v : α) :
    List (String × α) :=
  match m with
  | [] => [(k, v)]
  | (k₁, v₁) :: rest =>
      if k₁ = k then (k, v) :: rest else (k₁, v₁) :: assocSet rest k v

/-- `Set.add`: insert if absent (JS `Set` keeps insertion order). -/
def setAdd (s : List String) (x : String) : List String :=
  if s.contains x then s else s ++ [x]

/-- `ROUNDS_PER_GAME` from `src/shared/events.ts`. -/
def ROUNDS_PER_GAME : Nat := 10

/-- `PRESSURE_TIMER_SECONDS` from `src/shared/events.ts`. -/
def PRESSURE_TIMER_SECONDS : Nat := 15

/-- `STAGE_POINTS` from `src/server/GameRoom.ts`. -/
def STAGE_POINTS : List Nat := [100, 50, 33]

/-- `MAX_STAGE` from `src/server/GameRoom.ts`. -/
def MAX_STAGE : Nat := 2

/-- Modelled from the spec: `normalizeForMatch` is declared in the shared
events module but its defining code is not among the sources at hand; the
spec describes it as the "case/diacritic/punctuation-normalized" form of a
string used for the fuzzy `title|artist` comparison.  We model it as
lowercasing and dropping every non-alphanumeric character.  No claim below
depends on its internals. -/
def normalizeForMatch (s : String) : String :=
  String.mk (s.toLower.toList.filter (fun c => c.isAlphanum))

/-- The whole mutable state of a `GameRoom`.  `pressureTimer` records whether
a timer handle is currently stored (live); `playerStates` is the insertion
ordered `Map`. -/
structure GameRoom where
  code : String
  host : Option PlayerInfo
  guest : Option PlayerInfo
  tracks : List TrackData
  playlistName : String
  currentRound : Nat
  currentStage : Nat
  playerStates : List (String × PlayerRoundState)
  pressureTimer : Bool
  roundComplete : Bool
  nextRoundReady : List String
deriving DecidableEq, Repr

/-- `new GameRoom(code)` with the field initialisers. -/
def mkGameRoom (code : String) : GameRoom :=
  { code := code
    host := none
    guest := none
    tracks := []
    playlistName := ""
    currentRound := 0
    currentStage := 0
    playerStates := []
    pressureTimer := false
    roundComplete := false
    nextRoundReady := [] }

/-- The record `initPlayerState` stores for a player. -/
def initPlayerState : PlayerRoundState :=
  { isLocked := false
    guessedCorrectly := false
    pointsEarned := 0
    stageGuessedAt := none
    totalScore := 0
    correctGuesses := 0
    streak := 0
    bestStreak := 0 }

/-- `GameRoom.addHost`. -/
def addHost (r : GameRoom) (player : PlayerInfo) : GameRoom :=
  { r with
    host := some player
    playerStates := assocSet r.playerStates player.id initPlayerState }

/-- `GameRoom.addGuest`. -/
def addGuest (r : GameRoom) (player : PlayerInfo) : GameRoom :=
  { r with
    guest := some player
    playerStates := assocSet r.playerStates player.id initPlayerState }

/-- `GameRoom.isFull`. -/
def isFull (r : GameRoom) : Bool :=
  r.host.isSome && r.guest.isSome

/-- `GameRoom.isEmpty`. -/
def isEmptyRoom (r : GameRoom) : Bool :=
  r.host.isNone && r.guest.isNone

/-- `GameRoom.getOpponentId`. -/
def getOpponentId (r : GameRoom) (playerId : String) : Option String :=
  if r.host.map PlayerInfo.id = some playerId then r.guest.map PlayerInfo.id
  else if r.guest.map PlayerInfo.id = some playerId then r.host.map PlayerInfo.id
  else none

/-- `GameRoom.clearPressureTimer`: `clearTimeout` and null the handle. -/
def clearPressureTimer (r : GameRoom) : GameRoom :=
  { r with pressureTimer := false }

/-- `GameRoom.removePlayer`. -/
def removePlayer (r : GameRoom) (playerId : String) : GameRoom :=
  let r₁ := if r.host.map PlayerInfo.id = some playerId
            then { r with host := none } else r
  let r₂ := if r₁.guest.map PlayerInfo.id = some playerId
            then { r₁ with guest := none } else r₁
  clearPressureTimer r₂

/-- `GameRoom.setTracks`.  The source shuffles the supplied list with a
`Math.random`-based comparator before truncating; the outcome of that shuffle
is an arbitrary permutation of the supplied list and is passed here as the
`shuffled` argument. -/
def setTracks (r : GameRoom) (shuffled : List TrackData)
    (playlistName : String) : GameRoom :=
  { r with
    tracks := shuffled.take ROUNDS_PER_GAME
    playlistName := playlistName
    currentRound := 0 }

/-- `GameRoom.getCurrentTrack`. -/
def getCurrentTrack (r : GameRoom) : Option TrackData :=
  if r.currentRound < 1 ∨ r.currentRound > r.tracks.length then none
  else r.tracks.get? (r.currentRound - 1)

/-- `GameRoom.resetRoundStates`. -/
def resetRoundStates (r : GameRoom) : GameRoom :=
  let r₁ := clearPressureTimer { r with roundComplete := false, currentStage := 0 }
  { r₁ with
    playerStates := r₁.playerStates.map (fun p =>
      (p.1, { p.2 with
                isLocked := false
                guessedCorrectly := false
                pointsEarned := 0
                stageGuessedAt := none })) }

/-- `GameRoom.startGame`: returns the updated room and the first track (or
none when no tracks are set). -/
def startGame (r : GameRoom) : GameRoom × Option TrackData :=
  if r.tracks.length = 0 then (r, none)
  else
    let r₁ := resetRoundStates { r with currentRound := 1, currentStage := 0 }
    (r₁, r₁.tracks.get? 0)

/-- `GameRoom.emitRoundComplete`. -/
def emitRoundComplete (r : GameRoom) : GameRoom × List Event :=
  match getCurrentTrack r with
  | none => (r, [])
  | some track =>
      (r, [Event.roundComplete r.currentRound track
            (r.playerStates.map (fun p =>
              (p.1, { guessedCorrectly := p.2.guessedCorrectly
                      pointsEarned := p.2.pointsEarned
                      stageGuessedAt := p.2.stageGuessedAt
                      totalScore := p.2.totalScore })))])

/-- `GameRoom.advanceStage`: advance both players to the next stage, or end
the round if already at the last stage. -/
def advanceStage (r : GameRoom) : GameRoom × List Event :=
  if r.roundComplete then (r, [])
  else if r.currentStage ≥ MAX_STAGE then
    let r₁ := { r with
      roundComplete := true
      playerStates := r.playerStates.map (fun p =>
        if p.2.guessedCorrectly then p else (p.1, { p.2 with streak := 0 })) }
    emitRoundComplete r₁
  else
    let newStage := r.currentStage + 1
    let r₁ := { r with
      currentStage := newStage
      playerStates := r.playerStates.map (fun p =>
        if p.2.guessedCorrectly then p else (p.1, { p.2 with isLocked := false })) }
    (r₁, [Event.stageAdvance newStage])

/-- The correctness test of `submitGuess`: exact id match, else the
normalized `title|artist` fallback when both guess fields are supplied and
non-empty (JS truthiness). -/
def guessIsCorrect (currentTrack : TrackData) (guessTrackId : String)
    (guessTitle guessArtist : Option String) : Bool :=
  if guessTrackId = currentTrack.id then true
  else
    match guessTitle, guessArtist with
    | some t, some a =>
        if t = "" ∨ a = "" then false
        else decide ((normalizeForMatch t ++ "|" ++ normalizeForMatch a)
          = (normalizeForMatch currentTrack.title ++ "|"
              ++ normalizeForMatch currentTrack.artist))
    | _, _ => false

/-- The correct-guess branch of `submitGuess`: award the stage points, end
the round immediately. -/
def submitCorrect (r : GameRoom) (playerId : String)
    (state : PlayerRoundState) (currentTrack : TrackData)
    (opponentId : Option String) : GameRoom × List Event :=
  let points :=
    match STAGE_POINTS.getD (min r.currentStage MAX_STAGE) 0 with
    | 0 => 33
    | p => p
  let newState := { state with
    guessedCorrectly := true
    pointsEarned := points
    stageGuessedAt := some r.currentStage
    totalScore := state.totalScore + points
    correctGuesses := state.correctGuesses + 1
    streak := state.streak + 1
    bestStreak := max state.bestStreak (state.streak + 1) }
  let r₁ := { r with playerStates := assocSet r.playerStates playerId newState }
  let evs₁ := [Event.guessResult playerId true points none false]
  let evs₂ :=
    match opponentId with
    | some oid => [Event.opponentCorrect oid currentTrack points r.currentStage]
    | none => []
  let r₂ := { clearPressureTimer r₁ with roundComplete := true }
  let r₃ :=
    match opponentId with
    | some oid =>
        match assocGet r₂.playerStates oid with
        | some os =>
            if os.guessedCorrectly then r₂
            else { r₂ with
              playerStates := assocSet r₂.playerStates oid { os with streak := 0 } }
        | none => r₂
    | none => r₂
  let p := emitRoundComplete r₃
  (p.1, evs₁ ++ evs₂ ++ p.2)

/-- The wrong-guess branch of `submitGuess`: lock the player; if the opponent
is also locked cancel the timer and advance the shared stage at once,
otherwise start the pressure timer on the opponent if none is running. -/
def submitWrong (r : GameRoom) (playerId : String)
    (state : PlayerRoundState) (opponentId : Option String) :
    GameRoom × List Event :=
  let r₁ := { r with
    playerStates := assocSet r.playerStates playerId { state with isLocked := true } }
  let evs₁ := [Event.guessResult playerId false 0 none true]
  let opponentState := opponentId.bind (fun oid => assocGet r₁.playerStates oid)
  let opponentAlsoLocked := opponentState.map PlayerRoundState.isLocked = some true
  if opponentAlsoLocked then
    let p := advanceStage (clearPressureTimer r₁)
    (p.1, evs₁ ++ p.2)
  else
    match opponentId with
    | some oid =>
        if r₁.pressureTimer then (r₁, evs₁)
        else
          ({ r₁ with pressureTimer := true },
           evs₁ ++ [Event.opponentGuessed oid PRESSURE_TIMER_SECONDS
                      r₁.currentStage false])
    | none => (r₁, evs₁)

/-- `GameRoom.submitGuess`.  The `stage` argument is the client's claimed
stage; mirroring the source, the body computes everything from the room's
shared `currentStage`. -/
def submitGuess (r : GameRoom) (playerId guessTrackId : String) (stage : Nat)
    (guessTitle guessArtist : Option String) : GameRoom × List Event :=
  if r.roundComplete then (r, [])
  else
    match assocGet r.playerStates playerId with
    | none => (r, [])
    | some state =>
        if state.isLocked then (r, [])
        else if state.guessedCorrectly then (r, [])
        else
          match getCurrentTrack r with
          | none => (r, [])
          | some currentTrack =>
              let opponentId := getOpponentId r playerId
              if guessIsCorrect currentTrack guessTrackId guessTitle guessArtist then
                submitCorrect r playerId state currentTrack opponentId
              else
                submitWrong r playerId state opponentId

/-- `GameRoom.handlePressureExpired`: timer fired — clear the handle and
advance both players. -/
def handlePressureExpired (r : GameRoom) : GameRoom × List Event :=
  advanceStage (clearPressureTimer r)

/-- `GameRoom.emitGameOver`: build the score table and pick the winner by a
strict-maximum scan over the players in insertion order, starting from a
sentinel score of `-1`. -/
def emitGameOver (r : GameRoom) : GameRoom × List Event :=
  let scores := r.playerStates.map (fun p =>
    let player := if r.host.map PlayerInfo.id = some p.1 then r.host else r.guest
    let dn :=
      match player with
      | some pi => if pi.displayName = "" then "Unknown" else pi.displayName
      | none => "Unknown"
    (p.1, { displayName := dn
            totalScore := p.2.totalScore
            correctGuesses := p.2.correctGuesses
            bestStreak := p.2.bestStreak : ScoreEntry }))
  let winner := r.playerStates.foldl
    (fun (acc : Int × String) p =>
      if (p.2.totalScore : Int) > acc.1 then ((p.2.totalScore : Int), p.1) else acc)
    ((-1 : Int), "")
  (r, [Event.gameOver r.playlistName r.tracks.length scores winner.2])

/-- `GameRoom.advanceRound`. -/
def advanceRound (r : GameRoom) : GameRoom × List Event :=
  let r₁ := { r with currentRound := r.currentRound + 1 }
  if r₁.currentRound > r₁.tracks.length then emitGameOver r₁
  else
    let r₂ := resetRoundStates r₁
    match getCurrentTrack r₂ with
    | some track => (r₂, [Event.newRound r₂.currentRound r₂.tracks.length track])
    | none => (r₂, [])

/-- `GameRoom.playerReady`. -/
def playerReady (r : GameRoom) (playerId : String) : GameRoom × List Event :=
  let r₁ := { r with nextRoundReady := setAdd r.nextRoundReady playerId }
  let allReady := r₁.playerStates.all (fun p => r₁.nextRoundReady.contains p.1)
  if allReady then advanceRound { r₁ with nextRoundReady := [] }
  else (r₁, [])

/-- The outward-facing mutating operations on a room, as dispatched by
the socket handler (plus the timer-expiry callback). -/
inductive Op where
  | addHost (p : PlayerInfo)
  | addGuest (p : PlayerInfo)
  | removePlayer (playerId : String)
  | setTracks (shuffled : List TrackData) (playlistName : String)
  | startGame
  | submitGuess (playerId guessTrackId : String) (stage : Nat)
      (guessTitle guessArtist : Option String)
  | pressureExpired
  | playerReady (playerId : String)
  | advanceRound
deriving Repr

/-- Apply one operation to a room, yielding the new room and the events it
emitted. -/
def applyOp (r : GameRoom) : Op → GameRoom × List Event
  | Op.addHost p => (addHost r p, [])
  | Op.addGuest p => (addGuest r p, [])
  | Op.removePlayer pid => (removePlayer r pid, [])
  | Op.setTracks shuffled name => (setTracks r shuffled name, [])
  | Op.startGame => ((startGame r).1, [])
  | Op.submitGuess pid gid st gt ga => submitGuess r pid gid st gt ga
  | Op.pressureExpired => handlePressureExpired r
  | Op.playerReady pid => playerReady r pid
  | Op.advanceRound => advanceRound r

/-- Run a sequence of operations on a freshly constructed room. -/
def runOps (code : String) (ops : List Op) : GameRoom :=
  ops.foldl (fun r op => (applyOp r op).1) (mkGameRoom code)

/-- Repeated `playerReady` calls by one player, with the accumulated
events. -/
def iterReady : GameRoom → String → Nat → GameRoom × List Event
  | r, _, 0 => (r, [])
  | r, pid, Nat.succ n =>
      let p := playerReady r pid
      let q := iterReady p.1 pid n
      (q.1, p.2 ++ q.2)

/-! ### Basic lemmas about the embedding -/

lemma assocGet_assocSet_self {α : Type} (m : List (String × α)) (k : String)
    (v : α) : assocGet (assocSet m k v) k = some v := by
  induction m with
  | nil => simp [assocGet, assocSet]
  | cons hd tl ih =>
      by_cases h : hd.1 = k
      · simp [assocGet, assocSet, h]
      · simp [assocGet, assocSet, h, ih]

lemma assocGet_assocSet_ne {α : Type} (m : List (String × α)) (k k' : String)
    (v : α) (h : k' ≠ k) : assocGet (assocSet m k' v) k = assocGet m k := by
  induction m with
  | nil => simp [assocGet, assocSet, h]
  | cons hd tl ih =>
      by_cases hk : hd.1 = k'
      · simp [assocGet, assocSet, hk, h]
      · simp only [assocSet, hk, if_false]
        by_cases hk2 : hd.1 = k
        · simp [assocGet, hk2]
        · simp [assocGet, hk2, ih]

lemma emitRoundComplete_fst (r : GameRoom) : (emitRoundComplete r).1 = r := by
  unfold emitRoundComplete
  split <;> rfl

lemma emitGameOver_fst (r : GameRoom) : (emitGameOver r).1 = r := rfl

/-- `advanceStage` either leaves the stage unchanged (round already / newly
complete) or increments it, and it increments only from below `MAX_STAGE`. -/
lemma advanceStage_stage (r : GameRoom) :
    (advanceStage r).1.currentStage = r.currentStage ∨
    ((advanceStage r).1.currentStage = r.currentStage + 1 ∧
      r.currentStage < MAX_STAGE) := by
  unfold advanceStage
  split
  · left; rfl
  · split
    · left
      rw [emitRoundComplete_fst]
    · right
      exact ⟨rfl, by omega⟩

lemma submitCorrect_stage (r : GameRoom) (pid : String)
    (st : PlayerRoundState) (trk : TrackData) (oid : Option String) :
    (submitCorrect r pid st trk oid).1.currentStage = r.currentStage := by
  unfold submitCorrect
  cases oid with
  | none => simp [emitRoundComplete_fst, clearPressureTimer]
  | some o =>
      simp only [emitRoundComplete_fst]
      split <;> (try split) <;> simp [clearPressureTimer]

lemma submitWrong_stage (r : GameRoom) (pid : String)
    (st : PlayerRoundState) (oid : Option String) :
    (submitWrong r pid st oid).1.currentStage = r.currentStage ∨
    ((submitWrong r pid st oid).1.currentStage = r.currentStage + 1 ∧
      r.currentStage < MAX_STAGE) := by
  simp only [submitWrong]
  split
  · exact advanceStage_stage _
  · split
    · split
      · left; rfl
      · left; rfl
    · left; rfl

/-- `submitGuess` leaves the stage unchanged or increments it from below
`MAX_STAGE`. -/
lemma submitGuess_stage (r : GameRoom) (pid gid : String) (sg : Nat)
    (gt ga : Option String) :
    (submitGuess r pid gid sg gt ga).1.currentStage = r.currentStage ∨
    ((submitGuess r pid gid sg gt ga).1.currentStage = r.currentStage + 1 ∧
      r.currentStage < MAX_STAGE) := by
  unfold submitGuess
  split
  · left; rfl
  · split
    · left; rfl
    · split
      · left; rfl
      · split
        · left; rfl
        · split
          · left; rfl
          · split
            · left; exact submitCorrect_stage _ _ _ _ _
            · exact submitWrong_stage _ _ _ _

lemma handlePressureExpired_stage (r : GameRoom) :
    (handlePressureExpired r).1.currentStage = r.currentStage ∨
    ((handlePressureExpired r).1.currentStage = r.currentStage + 1 ∧
      r.currentStage < MAX_STAGE) := by
  unfold handlePressureExpired
  exact advanceStage_stage _

lemma resetRoundStates_stage (r : GameRoom) :
    (resetRoundStates r).currentStage = 0 := rfl

lemma removePlayer_stage (r : GameRoom) (pid : String) :
    (removePlayer r pid).currentStage = r.currentStage := by
  simp only [removePlayer, clearPressureTimer]
  split <;> split <;> rfl

lemma startGame_stage (r : GameRoom) :
    (startGame r).1.currentStage = 0 ∨
    (startGame r).1.currentStage = r.currentStage := by
  unfold startGame
  split
  · right; rfl
  · left; rfl

lemma advanceRound_stage (r : GameRoom) :
    (advanceRound r).1.currentStage = 0 ∨
    (advanceRound r).1.currentStage = r.currentStage := by
  simp only [advanceRound]
  split
  · right
    rw [emitGameOver_fst]
  · split <;> left <;> rfl

lemma playerReady_stage (r : GameRoom) (pid : String) :
    (playerReady r pid).1.currentStage = 0 ∨
    (playerReady r pid).1.currentStage = r.currentStage := by
  simp only [playerReady]
  split
  · exact advanceRound_stage _
  · right; rfl

/-- Single-step stage bound: every operation keeps `currentStage ≤ MAX_STAGE`. -/
lemma applyOp_stage_le (r : GameRoom) (op : Op) (h : r.currentStage ≤ MAX_STAGE) :
    (applyOp r op).1.currentStage ≤ MAX_STAGE := by
  cases op with
  | addHost p => exact h
  | addGuest p => exact h
  | removePlayer pid =>
      show (removePlayer r pid).currentStage ≤ MAX_STAGE
      rw [removePlayer_stage]
      exact h
  | setTracks s n => exact h
  | startGame =>
      rcases startGame_stage r with h0 | h0 <;>
        simp only [applyOp, h0] <;> omega
  | submitGuess pid gid sg gt ga =>
      rcases submitGuess_stage r pid gid sg gt ga with h0 | ⟨h0, h1⟩ <;>
        simp only [applyOp, h0] <;> omega
  | pressureExpired =>
      rcases handlePressureExpired_stage r with h0 | ⟨h0, h1⟩ <;>
        simp only [applyOp, h0] <;> omega
  | playerReady pid =>
      rcases playerReady_stage r pid with h0 | h0 <;>
        simp only [applyOp, h0] <;> omega
  | advanceRound =>
      rcases advanceRound_stage r with h0 | h0 <;>
        simp only [applyOp, h0] <;> omega

lemma foldl_stage_le (ops : List Op) :
    ∀ r : GameRoom, r.currentStage ≤ MAX_STAGE →
      (ops.foldl (fun r op => (applyOp r op).1) r).currentStage ≤ MAX_STAGE := by
  induction ops with
  | nil => intro r h; exact h
  | cons op rest ih =>
      intro r h
      exact ih _ (applyOp_stage_le r op h)

/-! ### Concrete fixtures used by witnesses and counterexamples -/

/-- A concrete track. -/
def wTrack1 : TrackData :=
  { id := "t1", title := "Song One", artist := "Artist One"
    album := "Album", albumArt := "", previewUrl := none }

/-- Another concrete track. -/
def wTrack2 : TrackData :=
  { id := "t2", title := "Song Two", artist := "Artist Two"
    album := "Album", albumArt := "", previewUrl := none }

/-- A third concrete track. -/
def wTrack3 : TrackData :=
  { id := "t3", title := "Song Three", artist := "Artist Three"
    album := "Album", albumArt := "", previewUrl := none }

/-- A concrete host player. -/
def wHost : PlayerInfo := { id := "A", displayName := "Ann", avatarUrl := "" }

/-- A concrete guest player. -/
def wGuest : PlayerInfo := { id := "B", displayName := "Ben", avatarUrl := "" }

/-- A mid-round two-player room: round 1 of one track, stage 0, nobody has
acted yet. -/
def wRoomLive : GameRoom :=
  { code := "ROOM01"
    host := some wHost
    guest := some wGuest
    tracks := [wTrack1]
    playlistName := "Mix"
    currentRound := 1
    currentStage := 0
    playerStates := [("A", initPlayerState), ("B", initPlayerState)]
    pressureTimer := false
    roundComplete := false
    nextRoundReady := [] }

/-- A completed-round room with a live-looking state otherwise. -/
def wRoomC4 : GameRoom :=
  { wRoomLive with roundComplete := true }

/-- A player state locked by a wrong guess. -/
def cexLockedSt : PlayerRoundState := { initPlayerState with isLocked := true }

/-- A room at the last stage where the guest is already locked and a timer is
running on the host. -/
def cexRoomC3 : GameRoom :=
  { wRoomLive with
    currentStage := 2
    pressureTimer := true
    playerStates := [("A", initPlayerState), ("B", cexLockedSt)] }

/-- Same situation at stage 0. -/
def cexRoomC3Stage0 : GameRoom :=
  { cexRoomC3 with currentStage := 0 }

/-! ### Claims -/

/-- C2: for every room and every sequence of operations, `currentStage` stays
in `{0,1,2}` (i.e. `≤ MAX_STAGE = 2`); and a single operation either leaves
the stage no smaller than before (it only grows, via `advanceStage`), or
resets it to `0`, the latter only for the round/match-start operations
(`startGame`, `playerReady`, `advanceRound`). -/
theorem currentStage_invariant :
    (∀ (code : String) (ops : List Op),
        (runOps code ops).currentStage ≤ MAX_STAGE) ∧
    (∀ (r : GameRoom) (op : Op),
        r.currentStage ≤ (applyOp r op).1.currentStage ∨
        ((applyOp r op).1.currentStage = 0 ∧
          (op = Op.startGame ∨ (∃ pid, op = Op.playerReady pid) ∨
            op = Op.advanceRound))) := by
  constructor
  · intro code ops
    exact foldl_stage_le ops (mkGameRoom code) (by simp [mkGameRoom, MAX_STAGE])
  · intro r op
    cases op with
    | addHost p => left; exact le_refl _
    | addGuest p => left; exact le_refl _
    | removePlayer pid =>
        left
        show r.currentStage ≤ (removePlayer r pid).currentStage
        rw [removePlayer_stage]
    | setTracks s n => left; exact le_refl _
    | startGame =>
        rcases startGame_stage r with h0 | h0
        · right
          exact ⟨h0, Or.inl rfl⟩
        · left
          simp only [applyOp, h0, le_refl]
    | submitGuess pid gid sg gt ga =>
        left
        rcases submitGuess_stage r pid gid sg gt ga with h0 | ⟨h0, _⟩ <;>
          simp only [applyOp, h0] <;> omega
    | pressureExpired =>
        left
        rcases handlePressureExpired_stage r with h0 | ⟨h0, _⟩ <;>
          simp only [applyOp, h0] <;> omega
    | playerReady pid =>
        rcases playerReady_stage r pid with h0 | h0
        · right
          exact ⟨h0, Or.inr (Or.inl ⟨pid, rfl⟩)⟩
        · left
          simp only [applyOp, h0, le_refl]
    | advanceRound =>
        rcases advanceRound_stage r with h0 | h0
        · right
          exact ⟨h0, Or.inr (Or.inr rfl)⟩
        · left
          simp only [applyOp, h0, le_refl]

/-- C9: `submitGuess` is independent of its `stage` argument — two calls that
differ only in the claimed stage produce the same room state and the same
events, because everything is computed from the room's shared
`currentStage`. -/
theorem submitGuess_independent_of_stage_argument :
    ∀ (r : GameRoom) (playerId guessTrackId : String) (stage₁ stage₂ : Nat)
      (guessTitle guessArtist : Option String),
      submitGuess r playerId guessTrackId stage₁ guessTitle guessArtist
        = submitGuess r playerId guessTrackId stage₂ guessTitle guessArtist := by
  intro r playerId guessTrackId stage₁ stage₂ guessTitle guessArtist
  rfl

/-- C4: once `roundComplete` is set, a pressure-timer expiry is a no-op — no
player state changes, the stage does not advance, the round counter and the
completion flag are untouched, and no events are emitted (only the
already-dead timer handle is cleared). -/
theorem pressureExpiry_noop_after_roundComplete (r : GameRoom)
    (h : r.roundComplete = true) :
    (handlePressureExpired r).1.playerStates = r.playerStates ∧
    (handlePressureExpired r).1.currentStage = r.currentStage ∧
    (handlePressureExpired r).1.currentRound = r.currentRound ∧
    (handlePressureExpired r).1.roundComplete = true ∧
    (handlePressureExpired r).1 = clearPressureTimer r ∧
    (handlePressureExpired r).2 = [] := by
  have hst : handlePressureExpired r = (clearPressureTimer r, []) := by
    unfold handlePressureExpired advanceStage
    simp [clearPressureTimer, h]
  rw [hst]
  exact ⟨rfl, rfl, rfl, h, rfl, rfl⟩

/-- C4 witness: a concrete completed room on which the expiry no-ops. -/
theorem pressureExpiry_noop_after_roundComplete_witness :
    (wRoomC4.roundComplete = true) ∧
    (handlePressureExpired wRoomC4).1.playerStates = wRoomC4.playerStates ∧
    (handlePressureExpired wRoomC4).1.currentStage = wRoomC4.currentStage ∧
    (handlePressureExpired wRoomC4).2 = [] := by
  have h := pressureExpiry_noop_after_roundComplete wRoomC4 (by decide)
  exact ⟨by decide, h.1, h.2.1, h.2.2.2.2.2⟩

/-- C5 counterexample: `addHost` on a room whose host slot is already filled
is not a no-op — the slot occupant is replaced (and similarly for
`addGuest`), refuting the claimed silent-ignore behaviour. -/
theorem addHost_filled_slot_counterexample :
    (addHost (mkGameRoom "ROOM01") wHost).host = some wHost ∧
    (addHost (addHost (mkGameRoom "ROOM01") wHost) wGuest).host = some wGuest ∧
    addHost (addHost (mkGameRoom "ROOM01") wHost) wGuest
      ≠ addHost (mkGameRoom "ROOM01") wHost ∧
    (addGuest (addGuest (mkGameRoom "ROOM01") wGuest) wHost).guest = some wHost := by
  decide

/-- C5 amended: `addHost` (resp. `addGuest`) unconditionally overwrites the
slot with the new player and (re)initialises that player's state entry; it
never checks whether the slot is already filled.  Fullness checking is the
caller's responsibility (the join handler refuses joins to a full room). -/
theorem addHost_addGuest_unconditional :
    ∀ (r : GameRoom) (p : PlayerInfo),
      (addHost r p).host = some p ∧
      (addHost r p).guest = r.guest ∧
      (addHost r p).playerStates = assocSet r.playerStates p.id initPlayerState ∧
      (addGuest r p).guest = some p ∧
      (addGuest r p).host = r.host ∧
      (addGuest r p).playerStates = assocSet r.playerStates p.id initPlayerState :=
  fun _ _ => ⟨rfl, rfl, rfl, rfl, rfl, rfl⟩

/-! ### C10 helper lemmas -/

lemma removePlayer_fields (r : GameRoom) (pid : String) :
    (removePlayer r pid).playerStates = r.playerStates ∧
    (removePlayer r pid).nextRoundReady = r.nextRoundReady ∧
    (removePlayer r pid).currentRound = r.currentRound ∧
    (removePlayer r pid).pressureTimer = false := by
  simp only [removePlayer, clearPressureTimer]
  split <;> split <;> simp

lemma contains_false_iff (l : List String) (x : String) :
    l.contains x = false ↔ x ∉ l := by
  rw [← Bool.not_eq_true, not_iff_not]
  exact List.elem_iff

lemma contains_setAdd_ne (l : List String) (a b : String)
    (h : l.contains b = false) (hne : b ≠ a) :
    (setAdd l a).contains b = false := by
  rw [contains_false_iff] at h ⊢
  unfold setAdd
  split
  · exact h
  · simp only [List.mem_append, List.mem_singleton]
    rintro (hc | hc)
    · exact h hc
    · exact hne hc

lemma assocGet_exists_mem {α : Type} (m : List (String × α)) (k : String)
    (v : α) (h : assocGet m k = some v) : ∃ w, (k, w) ∈ m := by
  induction m with
  | nil => simp [assocGet] at h
  | cons hd tl ih =>
      by_cases hk : hd.1 = k
      · exact ⟨hd.2, by simp [← hk]⟩
      · simp only [assocGet, hk, if_false] at h
        obtain ⟨w, hw⟩ := ih h
        exact ⟨w, List.mem_cons_of_mem _ hw⟩

lemma playerReady_stuck (s : GameRoom) (aId bId : String) (sb : PlayerRoundState)
    (hne : bId ≠ aId) (hb : assocGet s.playerStates bId = some sb)
    (hready : s.nextRoundReady.contains bId = false) :
    playerReady s aId = ({ s with nextRoundReady := setAdd s.nextRoundReady aId }, []) := by
  have hcont : (setAdd s.nextRoundReady aId).contains bId = false :=
    contains_setAdd_ne _ _ _ hready hne
  have hall : (s.playerStates.all
      (fun p => (setAdd s.nextRoundReady aId).contains p.1)) = false := by
    obtain ⟨w, hw⟩ := assocGet_exists_mem _ _ _ hb
    rw [List.all_eq_false]
    exact ⟨(bId, w), hw, by simpa using (contains_false_iff _ _).mp hcont⟩
  simp only [playerReady, hall]
  simp

lemma iterReady_stuck (aId bId : String) (sb : PlayerRoundState)
    (hne : bId ≠ aId) :
    ∀ (n : Nat) (s : GameRoom), assocGet s.playerStates bId = some sb →
      s.nextRoundReady.contains bId = false →
      (iterReady s aId n).1.currentRound = s.currentRound ∧
      (iterReady s aId n).1.playerStates = s.playerStates ∧
      (iterReady s aId n).2 = [] := by
  intro n
  induction n with
  | zero => intro s _ _; exact ⟨rfl, rfl, rfl⟩
  | succ n ih =>
      intro s hb hready
      have hstep := playerReady_stuck s aId bId sb hne hb hready
      have hrec := ih { s with nextRoundReady := setAdd s.nextRoundReady aId } hb
        (contains_setAdd_ne _ _ _ hready hne)
      simp only [iterReady, hstep, List.nil_append]
      exact ⟨hrec.1, hrec.2.1, hrec.2.2⟩

/-- C10: `removePlayer` clears the slot and cancels the timer but keeps the
departed player's entry in the per-player state map; consequently, after one
of two players is removed, any number of `playerReady` calls by the remaining
player alone (the departed player not having signalled readiness) never
triggers `advanceRound` — the round counter never moves and no events are
emitted, because the readiness check still requires the departed id. -/
theorem removePlayer_blocks_future_round_advance (r : GameRoom)
    (aId bId : String) (sb : PlayerRoundState)
    (hne : bId ≠ aId)
    (hb : assocGet r.playerStates bId = some sb)
    (hready : r.nextRoundReady.contains bId = false) :
    (removePlayer r bId).playerStates = r.playerStates ∧
    (removePlayer r bId).pressureTimer = false ∧
    ∀ n : Nat,
      (iterReady (removePlayer r bId) aId n).1.currentRound = r.currentRound ∧
      (iterReady (removePlayer r bId) aId n).2 = [] := by
  obtain ⟨hps, hrd, hcr, hpt⟩ := removePlayer_fields r bId
  refine ⟨hps, hpt, fun n => ?_⟩
  have h := iterReady_stuck aId bId sb hne n (removePlayer r bId)
    (by rw [hps]; exact hb) (by rw [hrd]; exact hready)
  exact ⟨by rw [h.1, hcr], h.2.2⟩

/-- C10 witness: in a concrete two-player mid-round room, removing the guest
and having the host signal readiness three times leaves the round counter
untouched and emits nothing. -/
theorem removePlayer_blocks_future_round_advance_witness :
    ("B" ≠ "A") ∧
    assocGet wRoomLive.playerStates "B" = some initPlayerState ∧
    wRoomLive.nextRoundReady.contains "B" = false ∧
    (iterReady (removePlayer wRoomLive "B") "A" 3).1.currentRound
      = wRoomLive.currentRound ∧
    (iterReady (removePlayer wRoomLive "B") "A" 3).2 = [] := by
  have h := removePlayer_blocks_future_round_advance wRoomLive "A" "B"
    initPlayerState (by decide) (by decide) (by decide)
  exact ⟨by decide, by decide, by decide, (h.2.2 3).1, (h.2.2 3).2⟩

/-! ### C8 helper lemma -/

lemma advanceRound_round_ready (r : GameRoom) :
    (advanceRound r).1.currentRound = r.currentRound + 1 ∧
    (advanceRound r).1.nextRoundReady = r.nextRoundReady := by
  simp only [advanceRound]
  split
  · rw [emitGameOver_fst]
    exact ⟨rfl, rfl⟩
  · split <;> exact ⟨rfl, rfl⟩

/-- C8: `playerReady` is idempotent per player.  With two known players `a ≠ b`
and an empty readiness set, two `playerReady a` calls leave the set at `[a]`
(size 1), keep the round counter unchanged and emit nothing; the subsequent
`playerReady b` call clears the set and advances the round. -/
theorem playerReady_idempotent (r : GameRoom) (a b : String)
    (sa sb : PlayerRoundState)
    (hps : r.playerStates = [(a, sa), (b, sb)])
    (hab : a ≠ b)
    (hready : r.nextRoundReady = []) :
    ((playerReady r a).1.nextRoundReady = [a] ∧
      (playerReady r a).2 = [] ∧
      (playerReady r a).1.currentRound = r.currentRound) ∧
    ((playerReady (playerReady r a).1 a).1.nextRoundReady = [a] ∧
      (playerReady (playerReady r a).1 a).2 = [] ∧
      (playerReady (playerReady r a).1 a).1.currentRound = r.currentRound) ∧
    ((playerReady (playerReady (playerReady r a).1 a).1 b).1.nextRoundReady = [] ∧
      (playerReady (playerReady (playerReady r a).1 a).1 b).1.currentRound
        = r.currentRound + 1) := by
  have hgb : assocGet r.playerStates b = some sb := by
    rw [hps]
    simp [assocGet, hab]
  have hcb : r.nextRoundReady.contains b = false := by
    rw [hready]
    rfl
  have h1 := playerReady_stuck r a b sb (Ne.symm hab) hgb hcb
  have hr1 : (playerReady r a).1.nextRoundReady = [a] := by
    rw [h1]
    show setAdd r.nextRoundReady a = [a]
    rw [hready]
    rfl
  have h2 := playerReady_stuck (playerReady r a).1 a b sb (Ne.symm hab)
    (by rw [h1]; exact hgb)
    (by rw [hr1]; simpa [contains_false_iff] using Ne.symm hab)
  have hr2 : (playerReady (playerReady r a).1 a).1.nextRoundReady = [a] := by
    rw [h2]
    show setAdd (playerReady r a).1.nextRoundReady a = [a]
    rw [hr1]
    simp [setAdd]
  have hps2 : (playerReady (playerReady r a).1 a).1.playerStates
      = [(a, sa), (b, sb)] := by
    rw [h2]
    show (playerReady r a).1.playerStates = _
    rw [h1]
    exact hps
  have hcond : ((playerReady (playerReady r a).1 a).1.playerStates.all
      (fun p => (setAdd (playerReady (playerReady r a).1 a).1.nextRoundReady b).contains p.1))
      = true := by
    rw [hps2, hr2]
    simp [setAdd, List.contains_eq_any_beq, Ne.symm hab]
  have hcr2 : (playerReady (playerReady r a).1 a).1.currentRound
      = r.currentRound := by
    rw [h2]
    show (playerReady r a).1.currentRound = r.currentRound
    rw [h1]
  set s₂ := (playerReady (playerReady r a).1 a).1 with hs₂
  have h3 : playerReady s₂ b = advanceRound { s₂ with nextRoundReady := [] } := by
    simp only [playerReady, hcond, if_true]
  rw [h3]
  obtain ⟨hcr, hrd⟩ := advanceRound_round_ready { s₂ with nextRoundReady := [] }
  refine ⟨⟨hr1, by rw [h1], by rw [h1]⟩, ⟨hr2, by rw [h2], hcr2⟩, by rw [hrd], ?_⟩
  rw [hcr]
  show { s₂ with nextRoundReady := ([] : List String) }.currentRound + 1
      = r.currentRound + 1
  show s₂.currentRound + 1 = r.currentRound + 1
  rw [hcr2]

/-- C8 witness: concrete double-ready by the host, then the guest's ready. -/
theorem playerReady_idempotent_witness :
    wRoomLive.playerStates = [("A", initPlayerState), ("B", initPlayerState)] ∧
    ("A" ≠ "B") ∧ wRoomLive.nextRoundReady = [] ∧
    (playerReady wRoomLive "A").1.nextRoundReady = ["A"] ∧
    (playerReady (playerReady wRoomLive "A").1 "A").1.nextRoundReady = ["A"] ∧
    (playerReady (playerReady wRoomLive "A").1 "A").1.currentRound
      = wRoomLive.currentRound ∧
    (playerReady (playerReady (playerReady wRoomLive "A").1 "A").1 "B").1.currentRound
      = wRoomLive.currentRound + 1 := by
  have h := playerReady_idempotent wRoomLive "A" "B" initPlayerState initPlayerState
    (by decide) (by decide) (by decide)
  exact ⟨by decide, by decide, by decide, h.1.1, h.2.1.1, h.2.1.2.2, h.2.2.2⟩

/-- C7: after `setTracks` the stored track sequence is a permutation of a
subset of the supplied list (`List.Subperm`), its length is
`min (supplied length) ROUNDS_PER_GAME`, and the round index is reset to 0;
quantified over every outcome `shuffled` of the random shuffle. -/
theorem setTracks_truncated_shuffle (r : GameRoom)
    (tracks shuffled : List TrackData) (name : String)
    (hperm : shuffled.Perm tracks) :
    ((setTracks r shuffled name).tracks).length
      = min tracks.length ROUNDS_PER_GAME ∧
    List.Subperm (setTracks r shuffled name).tracks tracks ∧
    (setTracks r shuffled name).currentRound = 0 := by
  refine ⟨?_, ?_, rfl⟩
  · show (shuffled.take ROUNDS_PER_GAME).length = _
    rw [List.length_take, hperm.length_eq]
    omega
  · exact ((List.take_sublist _ _).subperm).trans hperm.subperm

/-- C7 witness: a concrete 3-track list and one concrete shuffle of it. -/
theorem setTracks_truncated_shuffle_witness :
    (([wTrack3, wTrack1, wTrack2] : List TrackData).Perm
      [wTrack1, wTrack2, wTrack3]) ∧
    ((setTracks (mkGameRoom "ROOM01") [wTrack3, wTrack1, wTrack2] "Mix").tracks).length
      = 3 ∧
    (setTracks (mkGameRoom "ROOM01") [wTrack3, wTrack1, wTrack2] "Mix").currentRound
      = 0 := by
  have h := setTracks_truncated_shuffle (mkGameRoom "ROOM01")
    [wTrack1, wTrack2, wTrack3] [wTrack3, wTrack1, wTrack2] "Mix" (by decide)
  exact ⟨by decide, h.1.trans (by decide), h.2.2⟩

/-! ### C6 helper lemma -/

lemma winner_scan_two (hid gid : String) (hs gs : PlayerRoundState) :
    (([(hid, hs), (gid, gs)] : List (String × PlayerRoundState)).foldl
      (fun (acc : Int × String) p =>
        if (p.2.totalScore : Int) > acc.1 then ((p.2.totalScore : Int), p.1) else acc)
      ((-1 : Int), "")).2
    = if hs.totalScore < gs.totalScore then gid else hid := by
  simp only [List.foldl]
  rw [if_pos (by omega : ((hs.totalScore : Int) > (-1 : Int)))]
  split
  · rename_i hcond
    have h2 : hs.totalScore < gs.totalScore := by simpa using hcond
    simp [h2]
  · rename_i hcond
    have h2 : ¬ hs.totalScore < gs.totalScore := by simpa using hcond
    simp [h2]

/-- C6: when the incremented round index exceeds the track count,
`advanceRound` emits a game-over whose `winnerId` is determined by the
strict-max scan over the players in insertion (host-first) order: the
second-scanned player wins only with a strictly greater total, and equal
totals yield the first-scanned (host) id. -/
theorem gameOver_winner_scan (r : GameRoom) (hid gid : String)
    (hs gs : PlayerRoundState) (hp : PlayerInfo)
    (hhost : r.host = some hp) (hhid : hp.id = hid)
    (hps : r.playerStates = [(hid, hs), (gid, gs)])
    (hend : r.currentRound + 1 > r.tracks.length) :
    ∃ scores, (advanceRound r).2
      = [Event.gameOver r.playlistName r.tracks.length scores
          (if hs.totalScore < gs.totalScore then gid else hid)] := by
  simp only [advanceRound]
  rw [if_pos hend]
  simp only [emitGameOver]
  rw [hps, winner_scan_two]
  exact ⟨_, rfl⟩

/-- C6 witness: a finished one-track match with tied (zero) totals; the
emitted winner is the host's id. -/
theorem gameOver_winner_scan_witness :
    wRoomLive.host = some wHost ∧ wHost.id = "A" ∧
    wRoomLive.playerStates = [("A", initPlayerState), ("B", initPlayerState)] ∧
    wRoomLive.currentRound + 1 > wRoomLive.tracks.length ∧
    ∃ scores, (advanceRound wRoomLive).2
      = [Event.gameOver wRoomLive.playlistName wRoomLive.tracks.length scores "A"] := by
  have h := gameOver_winner_scan wRoomLive "A" "B" initPlayerState initPlayerState
    wHost rfl rfl (by decide) (by decide)
  refine ⟨rfl, rfl, by decide, by decide, ?_⟩
  simpa [initPlayerState] using h

/-! ### C1 helper lemmas -/

/-- The source's `STAGE_POINTS[Math.min(stage, MAX_STAGE)] || 33` equals the
spec's table lookup with fallback 33 past the end. -/
lemma stagePoints_lookup (s : Nat) :
    (match STAGE_POINTS.getD (min s MAX_STAGE) 0 with
      | 0 => 33
      | p => p) = STAGE_POINTS.getD s 33 := by
  match s with
  | 0 => rfl
  | 1 => rfl
  | 2 => rfl
  | n + 3 =>
      have h1 : min (n + 3) MAX_STAGE = 2 := by
        unfold MAX_STAGE
        omega
      have h2 : STAGE_POINTS.getD (n + 3) 33 = 33 :=
        List.getD_eq_default _ _ (by simp [STAGE_POINTS])
      rw [h1, h2]
      rfl

/-- Once `roundComplete` holds, any `submitGuess` is a no-op. -/
lemma submitGuess_noop_of_complete (r : GameRoom) (pid gid : String) (sg : Nat)
    (gt ga : Option String) (h : r.roundComplete = true) :
    submitGuess r pid gid sg gt ga = (r, []) := by
  simp [submitGuess, h]

/-- The correct-guess branch marks the round complete, clears the timer,
keeps the round counter and stage, and stores the updated guesser state. -/
lemma submitCorrect_result (r : GameRoom) (pid : String)
    (st : PlayerRoundState) (trk : TrackData) (oid : Option String) :
    (submitCorrect r pid st trk oid).1.roundComplete = true ∧
    (submitCorrect r pid st trk oid).1.pressureTimer = false ∧
    (submitCorrect r pid st trk oid).1.currentRound = r.currentRound ∧
    (submitCorrect r pid st trk oid).1.currentStage = r.currentStage ∧
    assocGet (submitCorrect r pid st trk oid).1.playerStates pid
      = some { st with
          guessedCorrectly := true
          pointsEarned := STAGE_POINTS.getD r.currentStage 33
          stageGuessedAt := some r.currentStage
          totalScore := st.totalScore + STAGE_POINTS.getD r.currentStage 33
          correctGuesses := st.correctGuesses + 1
          streak := st.streak + 1
          bestStreak := max st.bestStreak (st.streak + 1) } := by
  cases oid with
  | none =>
      simp only [submitCorrect, stagePoints_lookup, emitRoundComplete_fst,
        clearPressureTimer]
      refine ⟨?_, ?_, ?_, ?_, ?_⟩ <;>
        first
          | trivial
          | simp [assocGet_assocSet_self]
  | some o =>
      simp only [submitCorrect, stagePoints_lookup, emitRoundComplete_fst,
        clearPressureTimer]
      split
      · rename_i os heq
        split
        · refine ⟨?_, ?_, ?_, ?_, ?_⟩ <;>
            first
              | trivial
              | simp [assocGet_assocSet_self]
        · rename_i hng
          refine ⟨?_, ?_, ?_, ?_, ?_⟩ <;>
            try trivial
          by_cases ho : o = pid
          · exfalso
            subst ho
            rw [assocGet_assocSet_self] at heq
            injection heq with h
            subst h
            exact hng rfl
          · rw [assocGet_assocSet_ne _ _ _ _ ho]
            simp [assocGet_assocSet_self]
      · refine ⟨?_, ?_, ?_, ?_, ?_⟩ <;>
          first
            | trivial
            | simp [assocGet_assocSet_self]

/-- C1: an in-progress round, a correct guess by an unlocked player who has
not yet guessed correctly: the guesser is awarded exactly
`STAGE_POINTS.getD currentStage 33` (the `{100,50,33}` table, 33 past its
end), the points are added to their `totalScore`, the round is marked
complete at once, and every subsequent `submitGuess` by anyone in that round
is a no-op. -/
theorem correct_guess_awards_and_ends_round (r : GameRoom)
    (playerId guessTrackId : String) (stage : Nat)
    (guessTitle guessArtist : Option String)
    (st : PlayerRoundState) (track : TrackData)
    (hrc : r.roundComplete = false)
    (hst : assocGet r.playerStates playerId = some st)
    (hlock : st.isLocked = false)
    (hcorr : st.guessedCorrectly = false)
    (htrack : getCurrentTrack r = some track)
    (hguess : guessIsCorrect track guessTrackId guessTitle guessArtist = true) :
    (submitGuess r playerId guessTrackId stage guessTitle guessArtist).1.roundComplete
      = true ∧
    (∃ stN, assocGet
        (submitGuess r playerId guessTrackId stage guessTitle guessArtist).1.playerStates
        playerId = some stN ∧
      stN.pointsEarned = STAGE_POINTS.getD r.currentStage 33 ∧
      stN.totalScore = st.totalScore + STAGE_POINTS.getD r.currentStage 33 ∧
      stN.guessedCorrectly = true) ∧
    ∀ (pid gid : String) (sg : Nat) (gt ga : Option String),
      submitGuess
          (submitGuess r playerId guessTrackId stage guessTitle guessArtist).1
          pid gid sg gt ga
        = ((submitGuess r playerId guessTrackId stage guessTitle guessArtist).1,
           []) := by
  have hres : submitGuess r playerId guessTrackId stage guessTitle guessArtist
      = submitCorrect r playerId st track (getOpponentId r playerId) := by
    simp [submitGuess, hrc, hst, hlock, hcorr, htrack, hguess]
  obtain ⟨h1, h2, h3, h4, h5⟩ :=
    submitCorrect_result r playerId st track (getOpponentId r playerId)
  rw [hres]
  refine ⟨h1, ⟨_, h5, rfl, rfl, rfl⟩, fun pid gid sg gt ga => ?_⟩
  exact submitGuess_noop_of_complete _ _ _ _ _ _ h1

/-- C1 witness: the host correctly guesses the only track of `wRoomLive` at
stage 0, earning 100 points, ending the round, and blocking a follow-up
guess by the guest. -/
theorem correct_guess_awards_and_ends_round_witness :
    (wRoomLive.roundComplete = false ∧
      assocGet wRoomLive.playerStates "A" = some initPlayerState ∧
      getCurrentTrack wRoomLive = some wTrack1 ∧
      guessIsCorrect wTrack1 "t1" none none = true) ∧
    (submitGuess wRoomLive "A" "t1" 0 none none).1.roundComplete = true ∧
    (∃ stN, assocGet (submitGuess wRoomLive "A" "t1" 0 none none).1.playerStates "A"
        = some stN ∧
      stN.pointsEarned = 100 ∧ stN.totalScore = 100 ∧
      stN.guessedCorrectly = true) ∧
    submitGuess (submitGuess wRoomLive "A" "t1" 0 none none).1 "B" "t1" 0 none none
      = ((submitGuess wRoomLive "A" "t1" 0 none none).1, []) := by
  have h := correct_guess_awards_and_ends_round wRoomLive "A" "t1" 0 none none
    initPlayerState wTrack1 (by decide) (by decide) (by decide) (by decide)
    (by decide) (by decide)
  obtain ⟨hN, hget, hpts, htot, hok⟩ := h.2.1
  exact ⟨⟨by decide, by decide, by decide, by decide⟩, h.1,
    ⟨hN, hget, hpts.trans (by decide), htot.trans (by decide), hok⟩,
    h.2.2 "B" "t1" 0 none none⟩

/-! ### C3 helper lemma -/

lemma advanceStage_result (s : GameRoom) (h : s.roundComplete = false) :
    (s.currentStage < MAX_STAGE →
      (advanceStage s).1.currentStage = s.currentStage + 1 ∧
      (advanceStage s).1.roundComplete = false ∧
      (advanceStage s).1.pressureTimer = s.pressureTimer) ∧
    (s.currentStage ≥ MAX_STAGE →
      (advanceStage s).1.currentStage = s.currentStage ∧
      (advanceStage s).1.roundComplete = true ∧
      (advanceStage s).1.pressureTimer = s.pressureTimer) := by
  constructor
  · intro hlt
    simp only [advanceStage, h]
    rw [if_neg (by omega : ¬ s.currentStage ≥ MAX_STAGE)]
    simp
  · intro hge
    simp only [advanceStage, h]
    rw [if_neg (by simp : ¬ (false = true)), if_pos hge, emitRoundComplete_fst]
    simp

/-- C3 counterexample: at the last stage (`currentStage = 2`) a wrong guess
while the opponent is already locked does *not* advance the shared stage —
the round completes instead with the stage unchanged — refuting the claim's
unconditional "the shared stage advances". -/
theorem bothLocked_lastStage_counterexample :
    (cexRoomC3.roundComplete = false ∧
      assocGet cexRoomC3.playerStates "A" = some initPlayerState ∧
      getCurrentTrack cexRoomC3 = some wTrack1 ∧
      guessIsCorrect wTrack1 "zzz" none none = false ∧
      getOpponentId cexRoomC3 "A" = some "B" ∧
      assocGet cexRoomC3.playerStates "B" = some cexLockedSt ∧
      cexLockedSt.isLocked = true ∧
      cexRoomC3.pressureTimer = true) ∧
    ¬ ((submitGuess cexRoomC3 "A" "zzz" 2 none none).1.currentStage
        = cexRoomC3.currentStage + 1) ∧
    (submitGuess cexRoomC3 "A" "zzz" 2 none none).1.currentStage
      = cexRoomC3.currentStage ∧
    (submitGuess cexRoomC3 "A" "zzz" 2 none none).1.roundComplete = true ∧
    (submitGuess cexRoomC3 "A" "zzz" 2 none none).1.pressureTimer = false := by
  decide

/-- C3 amended: a wrong guess while the opponent is already locked cancels
any pending pressure timer and runs the shared stage advance in the same
call, with no timer wait: below the last stage the shared stage increments;
at the last stage the stage is unchanged and the round completes instead.
Either way no live timer handle survives. -/
theorem wrong_guess_both_locked_advances (r : GameRoom)
    (playerId guessTrackId : String) (stage : Nat)
    (guessTitle guessArtist : Option String)
    (st os : PlayerRoundState) (track : TrackData) (oid : String)
    (hrc : r.roundComplete = false)
    (hst : assocGet r.playerStates playerId = some st)
    (hlock : st.isLocked = false)
    (hcorr : st.guessedCorrectly = false)
    (htrack : getCurrentTrack r = some track)
    (hwrong : guessIsCorrect track guessTrackId guessTitle guessArtist = false)
    (hopp : getOpponentId r playerId = some oid)
    (hoid : oid ≠ playerId)
    (hos : assocGet r.playerStates oid = some os)
    (holock : os.isLocked = true) :
    (submitGuess r playerId guessTrackId stage guessTitle guessArtist).1.pressureTimer
      = false ∧
    (r.currentStage < MAX_STAGE →
      (submitGuess r playerId guessTrackId stage guessTitle guessArtist).1.currentStage
        = r.currentStage + 1 ∧
      (submitGuess r playerId guessTrackId stage guessTitle guessArtist).1.roundComplete
        = false) ∧
    (r.currentStage ≥ MAX_STAGE →
      (submitGuess r playerId guessTrackId stage guessTitle guessArtist).1.currentStage
        = r.currentStage ∧
      (submitGuess r playerId guessTrackId stage guessTitle guessArtist).1.roundComplete
        = true) := by
  have hres : submitGuess r playerId guessTrackId stage guessTitle guessArtist
      = submitWrong r playerId st (some oid) := by
    simp [submitGuess, hrc, hst, hlock, hcorr, htrack, hwrong, hopp]
  have hlocked : assocGet
      (assocSet r.playerStates playerId { st with isLocked := true }) oid
      = some os := by
    rw [assocGet_assocSet_ne _ _ _ _ (fun h => hoid h.symm)]
    exact hos
  have hbranch : submitWrong r playerId st (some oid)
      = ((advanceStage (clearPressureTimer
            { r with playerStates :=
                assocSet r.playerStates playerId { st with isLocked := true } })).1,
         [Event.guessResult playerId false 0 none true] ++
           (advanceStage (clearPressureTimer
             { r with playerStates :=
                 assocSet r.playerStates playerId { st with isLocked := true } })).2) := by
    simp only [submitWrong, Option.some_bind]
    rw [hlocked]
    simp [holock]
  rw [hres, hbranch]
  have hstep := advanceStage_result (clearPressureTimer
    { r with playerStates :=
        assocSet r.playerStates playerId { st with isLocked := true } })
    (by exact hrc)
  refine ⟨?_, ?_, ?_⟩
  · by_cases hc : r.currentStage < MAX_STAGE
    · exact ((hstep.1 hc).2.2).trans rfl
    · exact ((hstep.2 (Nat.le_of_not_lt hc)).2.2).trans rfl
  · intro hc
    exact ⟨(hstep.1 hc).1, (hstep.1 hc).2.1⟩
  · intro hc
    exact ⟨(hstep.2 hc).1, (hstep.2 hc).2.1⟩

/-- C3 amended witness: below the last stage (stage 0), host guesses wrong
while the guest is already locked — the stage increments in the same call and
the timer handle is gone. -/
theorem wrong_guess_both_locked_advances_witness :
    (cexRoomC3Stage0.roundComplete = false ∧
      getOpponentId cexRoomC3Stage0 "A" = some "B" ∧
      assocGet cexRoomC3Stage0.playerStates "B" = some cexLockedSt ∧
      cexLockedSt.isLocked = true ∧
      cexRoomC3Stage0.currentStage < MAX_STAGE) ∧
    (submitGuess cexRoomC3Stage0 "A" "zzz" 0 none none).1.pressureTimer = false ∧
    (submitGuess cexRoomC3Stage0 "A" "zzz" 0 none none).1.currentStage
      = cexRoomC3Stage0.currentStage + 1 ∧
    (submitGuess cexRoomC3Stage0 "A" "zzz" 0 none none).1.roundComplete = false := by
  have h := wrong_guess_both_locked_advances cexRoomC3Stage0 "A" "zzz" 0 none none
    initPlayerState cexLockedSt wTrack1 "B" (by decide) (by decide) (by decide)
    (by decide) (by decide) (by decide) (by decide) (by decide) (by decide)
    (by decide)
  have hlt : cexRoomC3Stage0.currentStage < MAX_STAGE := by decide
  exact ⟨⟨by decide, by decide, by decide, by decide, hlt⟩, h.1,
    (h.2.1 hlt).1, (h.2.1 hlt).2⟩

end IntroGame
